import Mathlib

/-!
Shallow embedding of the collaborative batch-transaction coordinator
(`process_batch_events` in `src/batch.rs`).

The handler is modelled as a pure function over an explicit environment that
stands for the external collaborators (Wallet, ChannelManager, the randomness
source).  PSBT metadata entries (`bitcoin::psbt::Input`/`Output`) and raw
transaction entries (`TxIn`/`TxOut`) are opaque and represented by `Nat`.
Fallible collaborator calls that the source unwraps are modelled as `Option`;
an `unwrap` of `none` is recorded as a `panicked` outcome.
-/

section Model

/-- Opaque identifier of a network peer (a public key in the source). -/
abbrev NodeId := Nat

/-- The unsigned transaction inside the PSBT: raw input and output sequences
(`psbt.unsigned_tx.input` / `psbt.unsigned_tx.output`). -/
structure UnsignedTx where
  input : List Nat
  output : List Nat
  deriving DecidableEq, Repr

/-- The partially-signed transaction: metadata sequences `inputs`/`outputs`
parallel to the raw sequences in `unsigned_tx`. -/
structure Psbt where
  inputs : List Nat
  outputs : List Nat
  unsigned_tx : UnsignedTx
  deriving DecidableEq, Repr

/-- The argument list of `channel_manager.send_psbt(...)` as called by the
handler (the chosen peer is recorded separately in the outcome). -/
structure SendArgs where
  uniform_amount : Nat
  fee_per_participant : Nat
  max_participants : Nat
  participants : List NodeId
  hops : List NodeId
  psbt : Psbt
  sign : Bool
  deriving DecidableEq, Repr

/-- The fields of an inbound `PSBTReceived` event. -/
structure BatchMsg where
  receiver_node_id : NodeId
  prev_node_id : NodeId
  uniform_amount : Nat
  fee_per_participant : Nat
  max_participants : Nat
  participants : List NodeId
  hops : List NodeId
  psbt : Psbt
  sign : Bool
  deriving DecidableEq, Repr

/-- External collaborators of the handler.  `open_channels` lists the
counterparty node ids returned by `channel_manager.list_channels()`, in order;
`channels_with n` is the length of `list_channels_with_counterparty(n)`.
`add_utxos_to_psbt` and `payjoin_sign_psbt` are the Wallet primitives; they
return `none` when the wallet fails (the source unwraps these results).
`input_tape`/`output_tape` feed the Fisher-Yates shuffle. -/
structure Env where
  open_channels : List NodeId
  channels_with : NodeId → Nat
  add_utxos_to_psbt : Psbt → Option Nat → Nat → Option Psbt
  payjoin_sign_psbt : Psbt → Option Psbt
  input_tape : List Nat
  output_tape : List Nat

/-- What the handler did with the message. `panicked` records the call site of
a failed `unwrap` together with the `participants` value at that moment. -/
inductive Outcome where
  | sent (next_node_id : NodeId) (args : SendArgs) : Outcome
  | stored (psbt : Psbt) : Outcome
  | dropped : Outcome
  | panicked (site : String) (participants : List NodeId) : Outcome
  deriving DecidableEq, Repr

/-- Result of one invocation of the handler: the outcome plus instrumentation
recording which collaborator calls ran and the successive PSBT states. -/
structure HandlerResult where
  contributed : Bool
  shuffled : Bool
  signed_self : Bool
  p_post_sign : List NodeId
  psbt_trace : List Psbt
  outcome : Outcome
  deriving Repr

/-- Swap the elements at positions `i` and `j` (Rust `Vec::swap`); out-of-range
indices leave the list unchanged. -/
def listSwap {α : Type} (l : List α) (i j : Nat) : List α :=
  match l.get? i, l.get? j with
  | some a, some b => (l.set i b).set j a
  | _, _ => l

/-- Modelled from the `rand` crate (not part of this repository):
`SliceRandom::shuffle` is the Fisher-Yates loop
`for i in (1..len).rev() { swap(i, gen_range(0..=i)) }`; the successive
outputs of the random source are an explicit tape, reduced mod `i+1`. -/
def fyShuffleAux {α : Type} : List Nat → Nat → List α → List α
  | _, 0, l => l
  | [], _ + 1, l => l
  | t :: ts, i + 1, l => fyShuffleAux ts i (listSwap l (i + 1) (t % (i + 2)))

/-- Shuffle a list with the given random tape (see `fyShuffleAux`). -/
def fyShuffle {α : Type} (tape : List Nat) (l : List α) : List α :=
  match l.length with
  | 0 => l
  | n + 1 => fyShuffleAux tape n l

/-- The one-time shuffle at the Collecting-to-Signing transition
(source lines 100-128): zip metadata with raw entries, shuffle the pairs,
unzip back; inputs and outputs independently. -/
def shufflePsbt (input_tape output_tape : List Nat) (psbt : Psbt) : Psbt :=
  let paired_inputs := psbt.inputs.zip psbt.unsigned_tx.input
  let shuffled_in := fyShuffle input_tape paired_inputs
  let (shuffled_psbt_inputs, shuffled_tx_inputs) := shuffled_in.unzip
  let paired_outputs := psbt.outputs.zip psbt.unsigned_tx.output
  let shuffled_out := fyShuffle output_tape paired_outputs
  let (shuffled_psbt_outputs, shuffled_tx_outputs) := shuffled_out.unzip
  { inputs := shuffled_psbt_inputs,
    outputs := shuffled_psbt_outputs,
    unsigned_tx := { input := shuffled_tx_inputs, output := shuffled_tx_outputs } }

/-- Source line 88-89: `if uniform_amount > 0 { Some(..) } else { None }`. -/
def uniform_amount_opt (uniform_amount : Nat) : Option Nat :=
  if uniform_amount > 0 then some uniform_amount else none

/-- Source lines 177-181: when the receiver is listed in `participants` it is
removed (`retain(|key| *key != receiver_node_id)`), otherwise the list is kept. -/
def participantsAfterSign (participants : List NodeId) (receiver : NodeId) : List NodeId :=
  if participants.contains receiver then
    participants.filter (fun key => key != receiver)
  else participants

/-- First routing loop of the Collecting branch (source lines 137-146): scan the
open channels for a counterparty that is neither a participant nor the last
hop; evaluating `hops.last().unwrap()` on empty `hops` is a panic. -/
def selectLoop1 (participants hops : List NodeId) : List NodeId → Except String (Option NodeId)
  | [] => .ok none
  | c :: cs =>
    if participants.contains c then selectLoop1 participants hops cs
    else
      match hops.getLast? with
      | none => .error "hops.last"
      | some h => if h = c then selectLoop1 participants hops cs else .ok (some c)

/-- Fallback selection (source lines 149-160): if exactly one channel is open
take it, then let the first counterparty different from `prev_node_id`
override that choice. -/
def fallbackSelect (open_channels : List NodeId) (prev_node_id : NodeId) : Option NodeId :=
  let base := if open_channels.length = 1 then open_channels.head? else none
  match open_channels.find? (fun c => c != prev_node_id) with
  | some c => some c
  | none => base

/-- Full next-hop selection of the Collecting branch, ending in
`next_node_id.unwrap()` (source line 166): `none` there is a panic. -/
def selectNext (participants hops open_channels : List NodeId) (prev_node_id : NodeId) :
    Except String NodeId :=
  match selectLoop1 participants hops open_channels with
  | .error e => .error e
  | .ok (some c) => .ok c
  | .ok none =>
    match fallbackSelect open_channels prev_node_id with
    | some c => .ok c
    | none => .error "next_node_id.unwrap"

/-- Alternate-signer search (source lines 203-204): first participant, scanned
in reverse order, that has at least one open channel. -/
def findAlternate (channels_with : NodeId → Nat) (participants : List NodeId) : Option NodeId :=
  participants.reverse.find? (fun node_id => decide (0 < channels_with node_id))

/-- Signing-phase routing (source lines 186-230): pop the last hop as
`next_signer`; forward directly when a channel to it exists, otherwise forward
to an alternate participant with `next_signer` re-inserted; with no hops left,
hand the PSBT to wallet storage. -/
def signingOutcome (env : Env) (m : BatchMsg) (participants₁ : List NodeId) (psbt₃ : Psbt) :
    Outcome :=
  match m.hops.getLast? with
  | none => .stored psbt₃
  | some next_signer =>
    let hops₁ := m.hops.dropLast
    if 0 < env.channels_with next_signer then
      .sent next_signer
        { uniform_amount := m.uniform_amount, fee_per_participant := m.fee_per_participant,
          max_participants := m.max_participants, participants := participants₁,
          hops := hops₁, psbt := psbt₃, sign := true }
    else
      match findAlternate env.channels_with participants₁ with
      | some node_id =>
        let inner_participants :=
          if participants₁.contains next_signer then participants₁
          else participants₁ ++ [next_signer]
        .sent node_id
          { uniform_amount := m.uniform_amount, fee_per_participant := m.fee_per_participant,
            max_participants := m.max_participants, participants := inner_participants,
            hops := hops₁, psbt := psbt₃, sign := true }
      | none => .dropped

/-- The `PSBTReceived` arm of `process_batch_events` (source lines 53-232).
The quota comparison models the `participants.len() as u8` cast as
`length % 256`. -/
def processReceived (env : Env) (m : BatchMsg) : HandlerResult :=
  let joining := !m.sign && !(m.participants.contains m.receiver_node_id)
  let participants₀ :=
    if joining then m.participants ++ [m.receiver_node_id] else m.participants
  match (if joining then
          env.add_utxos_to_psbt m.psbt (uniform_amount_opt m.uniform_amount)
            m.fee_per_participant
         else some m.psbt) with
  | none =>
    { contributed := joining, shuffled := false, signed_self := false,
      p_post_sign := participants₀, psbt_trace := [m.psbt],
      outcome := .panicked "add_utxos_to_psbt" participants₀ }
  | some psbt₁ =>
    let quota := decide (m.max_participants ≤ participants₀.length % 256)
    let sign₁ := m.sign || quota
    let psbt₂ := if quota then shufflePsbt env.input_tape env.output_tape psbt₁ else psbt₁
    let trace₀ := [m.psbt] ++ (if joining then [psbt₁] else [])
      ++ (if quota then [psbt₂] else [])
    if sign₁ then
      let inP := participants₀.contains m.receiver_node_id
      match (if inP then env.payjoin_sign_psbt psbt₂ else some psbt₂) with
      | none =>
        { contributed := joining, shuffled := quota, signed_self := inP,
          p_post_sign := participants₀, psbt_trace := trace₀,
          outcome := .panicked "payjoin_sign_psbt" participants₀ }
      | some psbt₃ =>
        let participants₁ := participantsAfterSign participants₀ m.receiver_node_id
        { contributed := joining, shuffled := quota, signed_self := inP,
          p_post_sign := participants₁,
          psbt_trace := trace₀ ++ (if inP then [psbt₃] else []),
          outcome := signingOutcome env m participants₁ psbt₃ }
    else
      match selectNext participants₀ m.hops env.open_channels m.prev_node_id with
      | .error site =>
        { contributed := joining, shuffled := quota, signed_self := false,
          p_post_sign := participants₀, psbt_trace := trace₀,
          outcome := .panicked site participants₀ }
      | .ok next_node_id =>
        { contributed := joining, shuffled := quota, signed_self := false,
          p_post_sign := participants₀, psbt_trace := trace₀,
          outcome := .sent next_node_id
            { uniform_amount := m.uniform_amount,
              fee_per_participant := m.fee_per_participant,
              max_participants := m.max_participants, participants := participants₀,
              hops := m.hops ++ [m.receiver_node_id], psbt := psbt₂, sign := false } }

/-- Alignment invariant of a PSBT: the metadata sequences have the same length
as the corresponding raw sequences. -/
def aligned (psbt : Psbt) : Prop :=
  psbt.inputs.length = psbt.unsigned_tx.input.length
  ∧ psbt.outputs.length = psbt.unsigned_tx.output.length

/-- A small concrete PSBT with two aligned input pairs and one output pair. -/
def psbtA : Psbt :=
  { inputs := [10, 20], outputs := [30], unsigned_tx := { input := [1, 2], output := [3] } }

/-- Baseline environment: one open channel to node 1, every peer reachable,
a wallet whose contribution and signing primitives succeed without modifying
the PSBT, and a fixed random tape. -/
def envBase : Env :=
  { open_channels := [1], channels_with := fun _ => 1,
    add_utxos_to_psbt := fun psbt _ _ => some psbt,
    payjoin_sign_psbt := fun psbt => some psbt,
    input_tape := [0], output_tape := [0] }

/-- Signing-phase message: node 2 receives from node 1 with the sign flag set,
`participants = [1, 2]` and an empty hop stack (quota 3 not re-met). -/
def signMsg : BatchMsg :=
  { receiver_node_id := 2, prev_node_id := 1, uniform_amount := 0,
    fee_per_participant := 0, max_participants := 3, participants := [1, 2],
    hops := [], psbt := psbtA, sign := true }

/-- Like `signMsg` but with `max_participants = 2`, so the quota comparison
holds again on receipt. -/
def signMsgQuota : BatchMsg := { signMsg with max_participants := 2 }

/-- Like `signMsg` but with one recorded hop (node 3) still to retrace. -/
def signMsgHop : BatchMsg := { signMsg with hops := [3] }

/-- Collecting-phase message: node 2 receives from node 1 and is not yet a
participant; quota 10 is far from met. -/
def collectMsg : BatchMsg :=
  { receiver_node_id := 2, prev_node_id := 1, uniform_amount := 0,
    fee_per_participant := 5, max_participants := 10, participants := [1],
    hops := [], psbt := psbtA, sign := false }

/-- Environment whose wallet cannot satisfy the funding contribution. -/
def envNoFunds : Env := { envBase with add_utxos_to_psbt := fun _ _ _ => none }

/-- Environment with zero open channels. -/
def envNoChannels : Env := { envBase with open_channels := [] }

/-- Environment with a single open channel to the unvisited node 3. -/
def envChannelTo3 : Env := { envBase with open_channels := [3] }

/-- Environment with a direct channel only to node 3. -/
def envOnlyPeer3 : Env := { envBase with channels_with := fun n => if n = 3 then 1 else 0 }

/-- Environment with a direct channel only to node 1. -/
def envOnlyPeer1 : Env := { envBase with channels_with := fun n => if n = 1 then 1 else 0 }

/-- Environment with no direct channel to any peer. -/
def envNoPeers : Env := { envBase with channels_with := fun _ => 0 }

end Model

section PermLemmas

variable {α : Type} [DecidableEq α]

theorem listSwap_perm (l : List α) (i j : Nat) : (listSwap l i j).Perm l := by
  unfold listSwap
  split
  · rename_i a b h1 h2
    rw [List.get?_eq_some] at h1 h2
    obtain ⟨hi, ha⟩ := h1
    obtain ⟨hj, hb⟩ := h2
    rw [List.perm_iff_count]
    intro x
    have hjl : j < (l.set i b).length := by simpa using hj
    rw [List.count_set _ _ _ _ hjl, List.count_set _ _ _ _ hi]
    have hgj : (l.set i b)[j] = b := by
      rw [List.getElem_set]
      split <;> simp_all [List.get_eq_getElem]
    have hcnt : (if (l[i] == x) = true then 1 else 0) ≤ List.count x l := by
      split
      · rename_i hEq
        have hx : l[i] = x := by simpa using hEq
        have : x ∈ l := hx ▸ List.getElem_mem _
        exact List.count_pos_iff.mpr this
      · exact Nat.zero_le _
    rw [hgj]
    have ha' : l.get ⟨i, hi⟩ = l[i] := rfl
    rw [ha'] at ha; subst ha
    omega
  · exact List.Perm.refl l

theorem fyShuffleAux_perm : ∀ (tape : List Nat) (i : Nat) (l : List α),
    (fyShuffleAux tape i l).Perm l
  | _, 0, l => by simp [fyShuffleAux]
  | [], _ + 1, l => by simp [fyShuffleAux]
  | t :: ts, i + 1, l => by
    have h1 := fyShuffleAux_perm ts i (listSwap l (i + 1) (t % (i + 2)))
    exact (by simpa [fyShuffleAux] using h1.trans (listSwap_perm l (i + 1) (t % (i + 2))))

theorem fyShuffle_perm (tape : List Nat) (l : List α) : (fyShuffle tape l).Perm l := by
  unfold fyShuffle
  split
  · exact List.Perm.refl l
  · exact fyShuffleAux_perm tape _ l

end PermLemmas

theorem shufflePsbt_input_pairs_perm (ti to' : List Nat) (p : Psbt) :
    ((shufflePsbt ti to' p).inputs.zip (shufflePsbt ti to' p).unsigned_tx.input).Perm
      (p.inputs.zip p.unsigned_tx.input) := by
  simp only [shufflePsbt]
  rw [List.zip_unzip]
  exact fyShuffle_perm _ _

theorem shufflePsbt_output_pairs_perm (ti to' : List Nat) (p : Psbt) :
    ((shufflePsbt ti to' p).outputs.zip (shufflePsbt ti to' p).unsigned_tx.output).Perm
      (p.outputs.zip p.unsigned_tx.output) := by
  simp only [shufflePsbt]
  rw [List.zip_unzip]
  exact fyShuffle_perm _ _

theorem shufflePsbt_aligned (ti to' : List Nat) (p : Psbt) : aligned (shufflePsbt ti to' p) := by
  simp [aligned, shufflePsbt, List.unzip_eq_map]

theorem processReceived_signing (env : Env) (m : BatchMsg) (hsign : m.sign = true)
    (hw : ∀ p, (env.payjoin_sign_psbt p).isSome) :
    ∃ psbt₃ trace,
      processReceived env m =
        { contributed := false,
          shuffled := decide (m.max_participants ≤ m.participants.length % 256),
          signed_self := m.participants.contains m.receiver_node_id,
          p_post_sign := participantsAfterSign m.participants m.receiver_node_id,
          psbt_trace := trace,
          outcome := signingOutcome env m
            (participantsAfterSign m.participants m.receiver_node_id) psbt₃ } := by
  unfold processReceived
  rw [hsign]
  simp only [Bool.not_true, Bool.false_and, Bool.true_or, if_false, if_true, Bool.false_eq_true,
    ite_false, ite_true]
  split
  · rename_i heq
    split at heq
    · rename_i hInP
      have := hw (if decide (m.max_participants ≤ m.participants.length % 256) = true then
        shufflePsbt env.input_tape env.output_tape m.psbt else m.psbt)
      rw [heq] at this
      simp at this
    · exact absurd heq (by simp)
  · rename_i psbt₃ heq
    exact ⟨psbt₃, _, rfl⟩

/-- C3: every PSBT state reachable while the handler processes a received
message (initial, after the wallet contribution, after the shuffle, after
signing) keeps the input-metadata and raw-input sequences at equal length,
and likewise for outputs, provided the state on receipt is aligned and the
wallet primitives preserve alignment. -/
theorem c3_trace_alignment_invariant (env : Env) (m : BatchMsg)
    (hc : ∀ p u f q, env.add_utxos_to_psbt p u f = some q → aligned p → aligned q)
    (hs : ∀ p q, env.payjoin_sign_psbt p = some q → aligned p → aligned q)
    (h0 : aligned m.psbt) :
    ∀ p ∈ (processReceived env m).psbt_trace, aligned p := by
  intro p hp
  simp only [processReceived] at hp
  repeat' (split at hp)
  all_goals simp_all
  all_goals (repeat' (rcases hp with hp | hp))
  all_goals
    (first
      | exact h0
      | exact shufflePsbt_aligned _ _ _
      | exact hc _ _ _ _ (by assumption) h0
      | exact hs _ _ (by assumption) (shufflePsbt_aligned _ _ _)
      | exact hs _ _ (by assumption) h0
      | exact (show shufflePsbt env.input_tape env.output_tape _ = p by assumption) ▸
          shufflePsbt_aligned _ _ _)

/-- C3 witness: the hypotheses hold for the baseline environment and the
concrete signing message, and every traced PSBT state is aligned. -/
theorem c3_trace_alignment_invariant_witness :
    aligned signMsg.psbt ∧ ∀ p ∈ (processReceived envBase signMsg).psbt_trace, aligned p :=
  ⟨⟨rfl, rfl⟩,
    c3_trace_alignment_invariant envBase signMsg
      (by intro p u f q h ha; cases h; exact ha)
      (by intro p q h ha; cases h; exact ha)
      ⟨rfl, rfl⟩⟩

/-- C4: the shuffle performed at the phase transition permutes aligned pairs:
the multiset of (input-metadata, raw-input) pairs is unchanged, and likewise,
independently, the multiset of (output-metadata, raw-output) pairs; pairs are
never split. -/
theorem c4_shuffle_is_pair_permutation (input_tape output_tape : List Nat) (psbt : Psbt) :
    (((shufflePsbt input_tape output_tape psbt).inputs.zip
        (shufflePsbt input_tape output_tape psbt).unsigned_tx.input : Multiset (Nat × Nat))
      = (psbt.inputs.zip psbt.unsigned_tx.input : Multiset (Nat × Nat)))
    ∧ (((shufflePsbt input_tape output_tape psbt).outputs.zip
        (shufflePsbt input_tape output_tape psbt).unsigned_tx.output : Multiset (Nat × Nat))
      = (psbt.outputs.zip psbt.unsigned_tx.output : Multiset (Nat × Nat))) :=
  ⟨Multiset.coe_eq_coe.mpr (shufflePsbt_input_pairs_perm _ _ _),
   Multiset.coe_eq_coe.mpr (shufflePsbt_output_pairs_perm _ _ _)⟩

/-- C1: at the concrete Signing-phase state where node 2 signs and removes
itself, `hops` is empty but participant 1 still owes a signature and is
directly reachable, the handler hands the transaction to wallet storage
instead of forwarding it. -/
theorem c1_finalizes_despite_remaining_participant :
    (processReceived envBase signMsg).outcome = Outcome.stored psbtA
    ∧ (processReceived envBase signMsg).signed_self = true
    ∧ (processReceived envBase signMsg).p_post_sign = [1]
    ∧ (processReceived envBase signMsg).p_post_sign ≠ []
    ∧ 0 < envBase.channels_with 1 := by
  refine ⟨rfl, rfl, rfl, ?_, ?_⟩ <;> decide

/-- C2: a message that already arrives with the sign flag set to true still
executes the transition block whenever the quota comparison holds: the shuffle
runs again and visibly reorders the stored PSBT. -/
theorem c2_reshuffle_on_signing_message :
    signMsgQuota.sign = true
    ∧ (processReceived envBase signMsgQuota).shuffled = true
    ∧ (processReceived envBase signMsgQuota).outcome
        = Outcome.stored { inputs := [20, 10], outputs := [30],
                           unsigned_tx := { input := [2, 1], output := [3] } } :=
  ⟨rfl, rfl, rfl⟩

/-- C5: when the wallet cannot satisfy the funding contribution, the handler
has already appended the receiver to `participants` and then panics at the
`unwrap` of `add_utxos_to_psbt`; no FundingError is surfaced. -/
theorem c5_funding_failure_panics_after_join :
    (processReceived envNoFunds collectMsg).outcome
      = Outcome.panicked "add_utxos_to_psbt" [1, 2]
    ∧ (processReceived envNoFunds collectMsg).contributed = true :=
  ⟨rfl, rfl⟩

/-- C6: with zero open channels in the Collecting phase, the handler panics at
the `unwrap` of `next_node_id` instead of raising a recoverable RoutingError. -/
theorem c6_no_open_channels_panics :
    (processReceived envNoChannels collectMsg).outcome
      = Outcome.panicked "next_node_id.unwrap" [1, 2] :=
  rfl

/-- C7: a Collecting-phase message with empty `hops` and an open channel to an
unvisited peer makes the handler panic at `hops.last().unwrap()` instead of
forwarding to that peer. -/
theorem c7_first_relay_empty_hops_panics :
    collectMsg.hops = []
    ∧ envChannelTo3.open_channels = [3]
    ∧ (3 : NodeId) ∉ collectMsg.participants ++ [collectMsg.receiver_node_id]
    ∧ (processReceived envChannelTo3 collectMsg).outcome
        = Outcome.panicked "hops.last" [1, 2] := by
  refine ⟨rfl, rfl, ?_, rfl⟩
  decide

/-- C8: on a Signing-phase message, when the receiver is listed in
`participants` the handler invokes wallet signing and afterwards the receiver
is absent from `participants` while every other participant is retained in
its original order (the list equals the order-preserving filter); when the
receiver is not listed, no signing occurs and `participants` is unchanged. -/
theorem c8_signing_removes_receiver (env : Env) (m : BatchMsg)
    (hsign : m.sign = true) (hw : ∀ p, (env.payjoin_sign_psbt p).isSome) :
    (m.receiver_node_id ∈ m.participants →
      (processReceived env m).signed_self = true
      ∧ (processReceived env m).p_post_sign
          = m.participants.filter (fun key => key != m.receiver_node_id)
      ∧ m.receiver_node_id ∉ (processReceived env m).p_post_sign)
    ∧ (m.receiver_node_id ∉ m.participants →
      (processReceived env m).signed_self = false
      ∧ (processReceived env m).p_post_sign = m.participants) := by
  obtain ⟨psbt₃, trace, heq⟩ := processReceived_signing env m hsign hw
  rw [heq]
  constructor
  · intro hmem
    have hcont : m.participants.contains m.receiver_node_id = true :=
      List.elem_eq_true_of_mem hmem
    refine ⟨hcont, ?_, ?_⟩
    · simp only [participantsAfterSign, hcont, ite_true, if_true]
    · simp only [participantsAfterSign, hcont, ite_true, if_true]
      simp [List.mem_filter]
  · intro hmem
    have hcont : m.participants.contains m.receiver_node_id = false := by
      cases h : m.participants.contains m.receiver_node_id
      · rfl
      · exact absurd (List.mem_of_elem_eq_true h) hmem
    refine ⟨hcont, ?_⟩
    simp only [participantsAfterSign, hcont, Bool.false_eq_true, ite_false, if_false]

/-- C10: on a Signing-phase message with non-empty `hops`, no direct channel
to the popped `next_signer` and no remaining participant with any open
channel, the handler sends nothing, stores nothing and returns without error:
the batch is silently dropped. -/
theorem c10_signing_dead_end_drops (env : Env) (m : BatchMsg)
    (hsign : m.sign = true) (hw : ∀ p, (env.payjoin_sign_psbt p).isSome)
    (ns : NodeId) (hns : m.hops.getLast? = some ns)
    (hdirect : env.channels_with ns = 0)
    (hall : ∀ n ∈ participantsAfterSign m.participants m.receiver_node_id,
      env.channels_with n = 0) :
    (processReceived env m).outcome = Outcome.dropped := by
  obtain ⟨psbt₃, trace, heq⟩ := processReceived_signing env m hsign hw
  rw [heq]
  simp only [signingOutcome, hns]
  rw [if_neg (by omega)]
  have hfind : findAlternate env.channels_with
      (participantsAfterSign m.participants m.receiver_node_id) = none := by
    unfold findAlternate
    refine List.find?_eq_none.mpr ?_
    intro x hx
    simp [hall x (List.mem_reverse.mp hx)]
  rw [hfind]

/-- C9: on a Signing-phase message with non-empty `hops`, the handler pops
exactly the top `hops` entry as `next_signer`; with a direct open channel it
forwards there with the sign flag still true and the popped hop stack;
otherwise, if some remaining participant has an open channel, it forwards to
such a participant, re-inserting `next_signer` into the forwarded
participants list when absent. -/
theorem c9_signing_relay_routing (env : Env) (m : BatchMsg)
    (hsign : m.sign = true) (hw : ∀ p, (env.payjoin_sign_psbt p).isSome)
    (ns : NodeId) (hns : m.hops.getLast? = some ns) :
    (0 < env.channels_with ns →
      ∃ args, (processReceived env m).outcome = Outcome.sent ns args
        ∧ args.sign = true ∧ args.hops = m.hops.dropLast
        ∧ args.participants = participantsAfterSign m.participants m.receiver_node_id)
    ∧ (env.channels_with ns = 0 →
      ∀ n' ∈ participantsAfterSign m.participants m.receiver_node_id,
        0 < env.channels_with n' →
        ∃ alt args, (processReceived env m).outcome = Outcome.sent alt args
          ∧ alt ∈ participantsAfterSign m.participants m.receiver_node_id
          ∧ 0 < env.channels_with alt
          ∧ args.sign = true ∧ args.hops = m.hops.dropLast
          ∧ args.participants =
              (if (participantsAfterSign m.participants m.receiver_node_id).contains ns
               then participantsAfterSign m.participants m.receiver_node_id
               else participantsAfterSign m.participants m.receiver_node_id ++ [ns])) := by
  obtain ⟨psbt₃, trace, heq⟩ := processReceived_signing env m hsign hw
  rw [heq]
  constructor
  · intro hpos
    simp only [signingOutcome, hns]
    rw [if_pos hpos]
    exact ⟨_, rfl, rfl, rfl, rfl⟩
  · intro hzero n' hn' hpos
    have hfind : (findAlternate env.channels_with
        (participantsAfterSign m.participants m.receiver_node_id)).isSome := by
      unfold findAlternate
      exact List.find?_isSome.mpr ⟨n', List.mem_reverse.mpr hn', by simpa using hpos⟩
    obtain ⟨alt, halt⟩ := Option.isSome_iff_exists.mp hfind
    have halt2 : List.find? (fun node_id => decide (0 < env.channels_with node_id))
        (participantsAfterSign m.participants m.receiver_node_id).reverse = some alt := halt
    have haltmem : alt ∈ participantsAfterSign m.participants m.receiver_node_id :=
      List.mem_reverse.mp (List.mem_of_find?_eq_some halt2)
    have haltpos : 0 < env.channels_with alt := by
      simpa using List.find?_some halt2
    have houtcome : signingOutcome env m
        (participantsAfterSign m.participants m.receiver_node_id) psbt₃
        = Outcome.sent alt
          { uniform_amount := m.uniform_amount, fee_per_participant := m.fee_per_participant,
            max_participants := m.max_participants,
            participants :=
              if (participantsAfterSign m.participants m.receiver_node_id).contains ns
              then participantsAfterSign m.participants m.receiver_node_id
              else participantsAfterSign m.participants m.receiver_node_id ++ [ns],
            hops := m.hops.dropLast, psbt := psbt₃, sign := true } := by
      simp only [signingOutcome, hns]
      rw [if_neg (by omega)]
      rw [halt]
    exact ⟨alt, _, houtcome, haltmem, haltpos, rfl, rfl, rfl⟩

/-- C8 witness at the concrete signing message and baseline environment. -/
theorem c8_signing_removes_receiver_witness :
    signMsg.sign = true
    ∧ ((signMsg.receiver_node_id ∈ signMsg.participants →
        (processReceived envBase signMsg).signed_self = true
        ∧ (processReceived envBase signMsg).p_post_sign
            = signMsg.participants.filter (fun key => key != signMsg.receiver_node_id)
        ∧ signMsg.receiver_node_id ∉ (processReceived envBase signMsg).p_post_sign)
      ∧ (signMsg.receiver_node_id ∉ signMsg.participants →
        (processReceived envBase signMsg).signed_self = false
        ∧ (processReceived envBase signMsg).p_post_sign = signMsg.participants)) :=
  ⟨rfl, c8_signing_removes_receiver envBase signMsg rfl (fun _ => rfl)⟩

/-- C9 witness: node 2 pops hop 3 and has a direct channel to it. -/
theorem c9_signing_relay_routing_witness :
    signMsgHop.sign = true
    ∧ signMsgHop.hops.getLast? = some 3
    ∧ ((0 < envOnlyPeer3.channels_with 3 →
        ∃ args, (processReceived envOnlyPeer3 signMsgHop).outcome = Outcome.sent 3 args
          ∧ args.sign = true ∧ args.hops = signMsgHop.hops.dropLast
          ∧ args.participants
              = participantsAfterSign signMsgHop.participants signMsgHop.receiver_node_id)
      ∧ (envOnlyPeer3.channels_with 3 = 0 →
        ∀ n' ∈ participantsAfterSign signMsgHop.participants signMsgHop.receiver_node_id,
          0 < envOnlyPeer3.channels_with n' →
          ∃ alt args, (processReceived envOnlyPeer3 signMsgHop).outcome = Outcome.sent alt args
            ∧ alt ∈ participantsAfterSign signMsgHop.participants signMsgHop.receiver_node_id
            ∧ 0 < envOnlyPeer3.channels_with alt
            ∧ args.sign = true ∧ args.hops = signMsgHop.hops.dropLast
            ∧ args.participants =
                (if (participantsAfterSign signMsgHop.participants
                      signMsgHop.receiver_node_id).contains 3
                 then participantsAfterSign signMsgHop.participants signMsgHop.receiver_node_id
                 else participantsAfterSign signMsgHop.participants signMsgHop.receiver_node_id
                   ++ [3]))) :=
  ⟨rfl, rfl, c9_signing_relay_routing envOnlyPeer3 signMsgHop rfl (fun _ => rfl) 3 rfl⟩

/-- C10 witness: node 2 pops hop 3; no peer is reachable, so the batch is
dropped. -/
theorem c10_signing_dead_end_drops_witness :
    signMsgHop.sign = true
    ∧ signMsgHop.hops.getLast? = some 3
    ∧ envNoPeers.channels_with 3 = 0
    ∧ (∀ n ∈ participantsAfterSign signMsgHop.participants signMsgHop.receiver_node_id,
        envNoPeers.channels_with n = 0)
    ∧ (processReceived envNoPeers signMsgHop).outcome = Outcome.dropped :=
  ⟨rfl, rfl, rfl, by decide,
    c10_signing_dead_end_drops envNoPeers signMsgHop rfl (fun _ => rfl) 3 rfl rfl
      (by decide)⟩
